import Mathlib

/-!
# Verification of the WAMP auth utilities and transport contract

Shallow embedding of `src/autobahn/wamp_auth_utils.hpp` and of the handler
attachment contract of `src/autobahn/wamp_transport.hpp`.

Bytes are modelled as `Nat` values below 256 (`std::string` in the C++ source
is a byte sequence; the encoded outputs are ASCII, represented here by their
ASCII codes).  The OpenSSL primitives the header calls (`BIO_f_base64` with
`BIO_FLAGS_BASE64_NO_NL`, `HMAC` with `EVP_sha256`, `PKCS5_PBKDF2_HMAC`) are
embedded by their documented, deterministic semantics: RFC 4648 base64 with
padding and without line breaks, HMAC-SHA-256, and PBKDF2-HMAC-SHA-256 with
OpenSSL's loop structure (the counter loop `for (j = 1; j < iter; j++)` runs
`max (iter - 1) 0` extra rounds, and the function returns 1 on success).
-/

/-! ## Base64 encoding (`base_64_encode`, wamp_auth_utils.hpp lines 73-96)

The source writes the input through an OpenSSL base64 filter BIO with the
`BIO_FLAGS_BASE64_NO_NL` flag: standard RFC 4648 base64, `=` padding
included, no newline characters inserted. -/

/-- ASCII codes of the 64-character base64 alphabet
`A-Z a-z 0-9 + /` used by the OpenSSL base64 BIO. -/
def b64Alphabet : List Nat :=
  [65, 66, 67, 68, 69, 70, 71, 72, 73, 74, 75, 76, 77, 78, 79, 80,
   81, 82, 83, 84, 85, 86, 87, 88, 89, 90,
   97, 98, 99, 100, 101, 102, 103, 104, 105, 106, 107, 108, 109, 110,
   111, 112, 113, 114, 115, 116, 117, 118, 119, 120, 121, 122,
   48, 49, 50, 51, 52, 53, 54, 55, 56, 57, 43, 47]

/-- The alphabet character for a 6-bit group. -/
def b64Char (n : Nat) : Nat := b64Alphabet.getD n 0

/-- The 6-bit value of an alphabet character (index in the alphabet). -/
def b64Val (c : Nat) : Nat := b64Alphabet.indexOf c

/-- `base_64_encode` (lines 73-96): RFC 4648 base64 of a byte sequence,
with `=` (ASCII 61) padding and no newlines, as produced by the OpenSSL
base64 BIO under `BIO_FLAGS_BASE64_NO_NL`. -/
def base_64_encode : List Nat → List Nat
  | [] => []
  | [a] => [b64Char (a / 4), b64Char (a % 4 * 16), 61, 61]
  | [a, b] =>
      [b64Char (a / 4), b64Char (a % 4 * 16 + b / 16), b64Char (b % 16 * 4), 61]
  | a :: b :: c :: rest =>
      b64Char (a / 4) :: b64Char (a % 4 * 16 + b / 16) ::
        b64Char (b % 16 * 4 + c / 64) :: b64Char (c % 64) :: base_64_encode rest

/-- The inverse radix-64 decoder of `base_64_encode`: groups of four
characters are mapped back to three bytes, with `=` (ASCII 61) padding
cutting the last group to one or two bytes. -/
def base_64_decode : List Nat → List Nat
  | c1 :: c2 :: c3 :: c4 :: rest =>
      if c3 = 61 then
        [b64Val c1 * 4 + b64Val c2 / 16]
      else if c4 = 61 then
        [b64Val c1 * 4 + b64Val c2 / 16, b64Val c2 % 16 * 16 + b64Val c3 / 4]
      else
        (b64Val c1 * 4 + b64Val c2 / 16) :: (b64Val c2 % 16 * 16 + b64Val c3 / 4) ::
          (b64Val c3 % 4 * 64 + b64Val c4) :: base_64_decode rest
  | _ => []

lemma b64Val_b64Char {n : Nat} (h : n < 64) : b64Val (b64Char n) = n := by
  revert h; revert n; decide

lemma b64Char_ne_61 (n : Nat) : b64Char n ≠ 61 := by
  by_cases h : n < 64
  · revert h; revert n; decide
  · have hlen : b64Alphabet.length ≤ n := by
      rw [show b64Alphabet.length = 64 from rfl]; omega
    rw [b64Char, List.getD_eq_default _ _ hlen]
    decide

lemma b64Char_ne_10 (n : Nat) : b64Char n ≠ 10 := by
  by_cases h : n < 64
  · revert h; revert n; decide
  · have hlen : b64Alphabet.length ≤ n := by
      rw [show b64Alphabet.length = 64 from rfl]; omega
    rw [b64Char, List.getD_eq_default _ _ hlen]
    decide

/-- Decoding inverts encoding on byte sequences. -/
lemma base_64_decode_encode :
    ∀ (x : List Nat), (∀ b ∈ x, b < 256) →
      base_64_decode (base_64_encode x) = x
  | [], _ => rfl
  | [a], h => by
      have ha : a < 256 := h a (by simp)
      have h1 : a / 4 < 64 := by omega
      have h2 : a % 4 * 16 < 64 := by omega
      simp only [base_64_encode, base_64_decode, if_pos trivial,
        b64Val_b64Char h1, b64Val_b64Char h2, List.cons.injEq, and_true]
      omega
  | [a, b], h => by
      have ha : a < 256 := h a (by simp)
      have hb : b < 256 := h b (by simp)
      have h1 : a / 4 < 64 := by omega
      have h2 : a % 4 * 16 + b / 16 < 64 := by omega
      have h3 : b % 16 * 4 < 64 := by omega
      simp only [base_64_encode, base_64_decode]
      rw [if_neg (b64Char_ne_61 _), if_pos trivial]
      rw [b64Val_b64Char h1, b64Val_b64Char h2, b64Val_b64Char h3]
      simp only [List.cons.injEq, and_true]
      omega
  | a :: b :: c :: rest, h => by
      have ha : a < 256 := h a (by simp)
      have hb : b < 256 := h b (by simp)
      have hc : c < 256 := h c (by simp)
      have ih := base_64_decode_encode rest (fun x hx => h x (by simp [hx]))
      simp only [base_64_encode, base_64_decode]
      rw [if_neg (b64Char_ne_61 _), if_neg (b64Char_ne_61 _)]
      have h1 : a / 4 < 64 := by omega
      have h2 : a % 4 * 16 + b / 16 < 64 := by omega
      have h3 : b % 16 * 4 + c / 64 < 64 := by omega
      have h4 : c % 64 < 64 := by omega
      rw [b64Val_b64Char h1, b64Val_b64Char h2, b64Val_b64Char h3, b64Val_b64Char h4, ih]
      simp only [List.cons.injEq, and_true]
      omega

/-- The padding character appears in the encoding exactly when the input
length is not a multiple of three, and no newline ever appears. -/
lemma base_64_encode_chars :
    ∀ (x : List Nat),
      (10 ∉ base_64_encode x) ∧ (61 ∈ base_64_encode x ↔ x.length % 3 ≠ 0)
  | [] => by simp [base_64_encode]
  | [a] => by
      simp [base_64_encode, b64Char_ne_10, fun n => (b64Char_ne_10 n).symm]
  | [a, b] => by
      simp [base_64_encode, b64Char_ne_10, fun n => (b64Char_ne_10 n).symm]
  | a :: b :: c :: rest => by
      obtain ⟨ih10, ih61⟩ := base_64_encode_chars rest
      constructor
      · simp only [base_64_encode, List.mem_cons]
        push_neg
        exact ⟨fun h => b64Char_ne_10 _ h.symm, fun h => b64Char_ne_10 _ h.symm,
          fun h => b64Char_ne_10 _ h.symm, fun h => b64Char_ne_10 _ h.symm, ih10⟩
      · simp only [base_64_encode, List.mem_cons, List.length_cons]
        rw [show (rest.length + 1 + 1 + 1) % 3 = rest.length % 3 by omega]
        constructor
        · rintro (h | h | h | h | h)
          · exact absurd h.symm (b64Char_ne_61 _)
          · exact absurd h.symm (b64Char_ne_61 _)
          · exact absurd h.symm (b64Char_ne_61 _)
          · exact absurd h.symm (b64Char_ne_61 _)
          · exact ih61.mp h
        · intro h
          exact Or.inr (Or.inr (Or.inr (Or.inr (ih61.mpr h))))

/-! ## Secret generation (`generate_wcs`, wamp_auth_utils.hpp lines 190-203)

The loop `for (int i = 0; i < length; ++i)` appends
`WCS_SECRET_CHARSET[rand() % (sizeof(WCS_SECRET_CHARSET) - 1)]` on each pass;
`sizeof(WCS_SECRET_CHARSET) - 1 = 62` (62 characters plus the terminating
NUL, minus one).  The process-wide random source `rand()` is modelled as a
function from the call index to the raw value drawn at that call. -/

/-- The 62-character charset of `generate_wcs` (line 195). -/
def WCS_SECRET_CHARSET : List Char :=
  "ABCDEFGHIJKLMNOPQRSTUVWXYZabcdefghijklmnopqrstuvwxyz0123456789".toList

/-- The charset index the source computes from one raw random value:
`rand() % (sizeof(WCS_SECRET_CHARSET) - 1)`, i.e. `rand() % 62` (line 199). -/
def wcsIndex (r : Nat) : Nat := r % 62

/-- `generate_wcs` (lines 190-203): `length` is a C `int`; the loop body runs
once per `i` with `0 <= i < length` (so not at all when `length <= 0`),
drawing `rand()` at call index `i`. -/
def generate_wcs (rnd : Nat → Nat) (length : Int) : List Char :=
  (List.range length.toNat).map (fun i => WCS_SECRET_CHARSET.getD (wcsIndex (rnd i)) 'A')

/-- `generate_wcs` with the declared default argument `length = 14`. -/
def generate_wcs_default (rnd : Nat → Nat) : List Char :=
  generate_wcs rnd 14

/-- How many raw values in the range `0, 1, ..., n-1` of the random source
are mapped by `wcsIndex` to the charset position `c`. -/
def wcsIndexCount (n c : Nat) : Nat :=
  ((List.range n).filter (fun r => wcsIndex r = c)).length

lemma wcsIndexCount_succ (n c : Nat) :
    wcsIndexCount (n + 1) c = wcsIndexCount n c + (if n % 62 = c then 1 else 0) := by
  unfold wcsIndexCount
  rw [List.range_succ, List.filter_append]
  simp only [List.length_append, wcsIndex]
  by_cases h : n % 62 = c <;> simp [h]

/-- Closed form of the preimage count: position `c` receives one raw value
from every full run of 62 consecutive values, plus one more exactly when
`c` falls below the remainder `n % 62`. -/
lemma wcsIndexCount_eq (n c : Nat) (hc : c < 62) :
    wcsIndexCount n c = n / 62 + (if c < n % 62 then 1 else 0) := by
  induction n with
  | zero => simp [wcsIndexCount]
  | succ n ih =>
      rw [wcsIndexCount_succ, ih]
      split_ifs <;> omega

/-! ## Transport handler attachment (wamp_transport.hpp lines 139-158)

`wamp_transport` is a pure virtual interface; no implementation of
`attach`/`detach`/`has_handler` exists in the repository sources, only the
documented contract ("Only one handler may be attached at any given time",
spec section 4.2).  The state machine below is modelled from the spec. -/

/-- Modelled from the spec: precondition failure raised on double attach
(the repository has no concrete transport; section 7 calls it
`ContractViolation`). -/
inductive contract_violation : Type
  | mk : contract_violation
deriving DecidableEq

/-- Modelled from the spec: the observable handler-attachment state of a
`wamp_transport` — "at most one attached Handler" (section 3).  The handler
itself is opaque; only its identity matters. -/
structure transport_state : Type where
  handler : Option Nat
deriving DecidableEq

/-- Modelled from the spec: `attach` installs the single message-delivery
target; attaching while already attached is a contract violation and leaves
no replacement (sections 4.2 and 7, and the header comment "Only one handler
may be attached at any given time"). -/
def wamp_attach (s : transport_state) (h : Nat) :
    Except contract_violation transport_state :=
  match s.handler with
  | some _ => .error .mk
  | none => .ok ⟨some h⟩

/-- Modelled from the spec: `detach` removes the currently attached
handler. -/
def wamp_detach (_s : transport_state) : transport_state :=
  ⟨none⟩

/-- Modelled from the spec: `has_handler` reports attachment state. -/
def wamp_has_handler (s : transport_state) : Bool :=
  s.handler.isSome

/-! ## SHA-256, HMAC-SHA-256 and PBKDF2-HMAC-SHA-256

`compute_wcs` and `derive_key` call OpenSSL's `HMAC` (with `EVP_sha256`) and
`PKCS5_PBKDF2_HMAC`.  These primitives are embedded here in full, on bytes
modelled as `Nat` below 256 and 32-bit words as `Nat` reduced mod `2 ^ 32`. -/

/-- `2 ^ 32`, the modulus of 32-bit word arithmetic. -/
def w32mod : Nat := 4294967296

/-- Right rotation of a 32-bit word. -/
def rotr32 (n x : Nat) : Nat := ((x >>> n) ||| (x <<< (32 - n))) % w32mod

/-- The SHA-256 choice function; `4294967295 - x` is the 32-bit complement. -/
def shaCh (x y z : Nat) : Nat := (x &&& y) ^^^ ((4294967295 - x) &&& z)

/-- The SHA-256 majority function. -/
def shaMaj (x y z : Nat) : Nat := (x &&& y) ^^^ (x &&& z) ^^^ (y &&& z)

/-- SHA-256 big sigma 0. -/
def shaS0 (x : Nat) : Nat := rotr32 2 x ^^^ rotr32 13 x ^^^ rotr32 22 x

/-- SHA-256 big sigma 1. -/
def shaS1 (x : Nat) : Nat := rotr32 6 x ^^^ rotr32 11 x ^^^ rotr32 25 x

/-- SHA-256 small sigma 0. -/
def shaLs0 (x : Nat) : Nat := rotr32 7 x ^^^ rotr32 18 x ^^^ (x >>> 3)

/-- SHA-256 small sigma 1. -/
def shaLs1 (x : Nat) : Nat := rotr32 17 x ^^^ rotr32 19 x ^^^ (x >>> 10)

/-- The 64 SHA-256 round constants (decimal). -/
def K256 : List Nat :=
  [1116352408, 1899447441, 3049323471, 3921009573, 961987163, 1508970993,
   2453635748, 2870763221, 3624381080, 310598401, 607225278, 1426881987,
   1925078388, 2162078206, 2614888103, 3248222580, 3835390401, 4022224774,
   264347078, 604807628, 770255983, 1249150122, 1555081692, 1996064986,
   2554220882, 2821834349, 2952996808, 3210313671, 3336571891, 3584528711,
   113926993, 338241895, 666307205, 773529912, 1294757372, 1396182291,
   1695183700, 1986661051, 2177026350, 2456956037, 2730485921, 2820302411,
   3259730800, 3345764771, 3516065817, 3600352804, 4094571909, 275423344,
   430227734, 506948616, 659060556, 883997877, 958139571, 1322822218,
   1537002063, 1747873779, 1955562222, 2024104815, 2227730452, 2361852424,
   2428436474, 2756734187, 3204031479, 3329325298]

/-- The SHA-256 working state: eight 32-bit words. -/
structure Sha256State : Type where
  a : Nat
  b : Nat
  c : Nat
  d : Nat
  e : Nat
  f : Nat
  g : Nat
  h : Nat
deriving DecidableEq

/-- The SHA-256 initial hash value (decimal). -/
def sha256Init : Sha256State :=
  ⟨1779033703, 3144134277, 1013904242, 2773480762,
   1359893119, 2600822924, 528734635, 1541459225⟩

/-- Big-endian bytes of a 32-bit word. -/
def wordBytes (x : Nat) : List Nat :=
  [x / 16777216 % 256, x / 65536 % 256, x / 256 % 256, x % 256]

/-- Big-endian 8-byte encoding of the bit length in SHA-256 padding. -/
def lenBytes8 (n : Nat) : List Nat :=
  [n / 2 ^ 56 % 256, n / 2 ^ 48 % 256, n / 2 ^ 40 % 256, n / 2 ^ 32 % 256,
   n / 2 ^ 24 % 256, n / 2 ^ 16 % 256, n / 2 ^ 8 % 256, n % 256]

/-- SHA-256 padding: a `0x80` byte, zeros up to 56 mod 64, and the
big-endian 64-bit bit length. -/
def sha256Pad (msg : List Nat) : List Nat :=
  msg ++ 128 :: (List.replicate ((119 - msg.length % 64) % 64) 0 ++ lenBytes8 (msg.length * 8))

/-- Split a byte list into 64-byte blocks. -/
def chunks64 (l : List Nat) : List (List Nat) :=
  if h : l = [] then [] else l.take 64 :: chunks64 (l.drop 64)
termination_by l.length
decreasing_by
  have hne : l.length ≠ 0 := fun hn => h (List.eq_nil_of_length_eq_zero hn)
  simp only [List.length_drop]
  omega

/-- Big-endian 32-bit words of a block. -/
def bytesToWords : List Nat → List Nat
  | a :: b :: c :: d :: rest => (a * 16777216 + b * 65536 + c * 256 + d) :: bytesToWords rest
  | _ => []

/-- Extend the 16 message-schedule words by `fuel` further words. -/
def sha256ScheduleExt (w : List Nat) : Nat → List Nat
  | 0 => w
  | fuel + 1 =>
      sha256ScheduleExt
        (w ++ [(shaLs1 (w.getD (w.length - 2) 0) + w.getD (w.length - 7) 0 +
                shaLs0 (w.getD (w.length - 15) 0) + w.getD (w.length - 16) 0) % w32mod])
        fuel

/-- The full 64-word message schedule of one block. -/
def sha256Schedule (w16 : List Nat) : List Nat := sha256ScheduleExt w16 48

/-- One SHA-256 round, consuming the precomputed sum of round constant and
schedule word. -/
def sha256Round (st : Sha256State) (kw : Nat) : Sha256State :=
  ⟨((st.h + shaS1 st.e + shaCh st.e st.f st.g + kw) % w32mod +
      (shaS0 st.a + shaMaj st.a st.b st.c) % w32mod) % w32mod,
   st.a, st.b, st.c,
   (st.d + (st.h + shaS1 st.e + shaCh st.e st.f st.g + kw) % w32mod) % w32mod,
   st.e, st.f, st.g⟩

/-- Compress one 64-byte block into the running state. -/
def sha256Compress (st : Sha256State) (block : List Nat) : Sha256State :=
  let fin := (List.zipWith (fun k w => (k + w) % w32mod) K256
      (sha256Schedule (bytesToWords block))).foldl sha256Round st
  ⟨(st.a + fin.a) % w32mod, (st.b + fin.b) % w32mod, (st.c + fin.c) % w32mod,
   (st.d + fin.d) % w32mod, (st.e + fin.e) % w32mod, (st.f + fin.f) % w32mod,
   (st.g + fin.g) % w32mod, (st.h + fin.h) % w32mod⟩

/-- Big-endian serialization of the final state: 32 bytes. -/
def sha256StateBytes (st : Sha256State) : List Nat :=
  wordBytes st.a ++ wordBytes st.b ++ wordBytes st.c ++ wordBytes st.d ++
    wordBytes st.e ++ wordBytes st.f ++ wordBytes st.g ++ wordBytes st.h

/-- SHA-256 of a byte sequence. -/
def sha256 (msg : List Nat) : List Nat :=
  sha256StateBytes ((chunks64 (sha256Pad msg)).foldl sha256Compress sha256Init)

/-- HMAC-SHA-256 (the OpenSSL `HMAC` with `EVP_sha256` called on lines
162-167): keys longer than the 64-byte block are hashed first, the key is
zero-padded to 64 bytes, and the inner/outer pads are `0x36`/`0x5c`. -/
def hmac_sha256 (key msg : List Nat) : List Nat :=
  let k0 := if 64 < key.length then sha256 key else key
  let kp := k0 ++ List.replicate (64 - k0.length) 0
  sha256 ((kp.map (fun b => b ^^^ 92)) ++ sha256 ((kp.map (fun b => b ^^^ 54)) ++ msg))

/-- Big-endian 4-byte block counter used by PBKDF2. -/
def int32be (i : Nat) : List Nat :=
  [i / 16777216 % 256, i / 65536 % 256, i / 256 % 256, i % 256]

/-- The xor-accumulation loop of one PBKDF2 block: OpenSSL's
`for (j = 1; j < iter; j++)`, so `(iter - 1).toNat` extra HMAC rounds. -/
def pbkdf2XorRounds (pass acc u : List Nat) : Nat → List Nat
  | 0 => acc
  | n + 1 =>
      pbkdf2XorRounds pass (List.zipWith (fun a b => a ^^^ b) acc (hmac_sha256 pass u))
        (hmac_sha256 pass u) n

/-- One PBKDF2 output block: `U1 = HMAC(pass, salt || INT(i))` xor-folded
with the chained HMAC values. -/
def pbkdf2Block (pass salt : List Nat) (iter : Int) (i : Nat) : List Nat :=
  pbkdf2XorRounds pass (hmac_sha256 pass (salt ++ int32be i))
    (hmac_sha256 pass (salt ++ int32be i)) (iter - 1).toNat

/-- OpenSSL's `PKCS5_PBKDF2_HMAC` with `EVP_sha256` (called on line 129):
concatenates 32-byte blocks for counters `1, 2, ...`, truncates to `keylen`
bytes, and returns 1 (its success code) together with the output buffer. -/
def PKCS5_PBKDF2_HMAC (pass salt : List Nat) (iter keylen : Int) : Int × List Nat :=
  (1, (((List.range ((keylen.toNat + 31) / 32)).map
      (fun j => pbkdf2Block pass salt iter (j + 1))).flatten).take keylen.toNat)

/-- The exception type `derived_key_error` (wamp_auth_utils.hpp lines
44-50), thrown when creating the derived key fails. -/
inductive derived_key_error : Type
  | mk : derived_key_error
deriving DecidableEq

/-- The return-code check of `derive_key` (lines 129-143): the primitive's
result is consumed by `if (result != 0) return base_64_encode(str_out);
else throw derived_key_error();`. -/
def derive_key_with (primResult : Int × List Nat) : Except derived_key_error (List Nat) :=
  if primResult.1 ≠ 0 then .ok (base_64_encode primResult.2) else .error .mk

/-- `derive_key` (lines 108-144): PBKDF2-HMAC-SHA-256 over the secret and
salt, base64-encoded on success. -/
def derive_key (passwd salt : List Nat) (iterations keylen : Int) :
    Except derived_key_error (List Nat) :=
  derive_key_with (PKCS5_PBKDF2_HMAC passwd salt iterations keylen)

/-- `compute_wcs` (lines 154-174): HMAC-SHA-256 of the challenge under the
key, the 32-byte digest base64-encoded. -/
def compute_wcs (key challenge : List Nat) : List Nat :=
  base_64_encode (hmac_sha256 key challenge)

/-! ## Supporting lemmas -/

lemma wordBytes_lt (x : Nat) : ∀ b ∈ wordBytes x, b < 256 := by
  simp only [wordBytes, List.mem_cons, List.not_mem_nil, or_false]
  rintro b (rfl | rfl | rfl | rfl) <;> omega

lemma sha256_length (msg : List Nat) : (sha256 msg).length = 32 := by
  simp [sha256, sha256StateBytes, wordBytes]

lemma sha256_bytes_lt (msg : List Nat) : ∀ b ∈ sha256 msg, b < 256 := by
  intro b hb
  simp only [sha256, sha256StateBytes, List.mem_append] at hb
  rcases hb with ((((((h | h) | h) | h) | h) | h) | h) | h <;> exact wordBytes_lt _ _ h

lemma hmac_sha256_length (key msg : List Nat) : (hmac_sha256 key msg).length = 32 := by
  simp only [hmac_sha256]
  exact sha256_length _

lemma hmac_sha256_bytes_lt (key msg : List Nat) : ∀ b ∈ hmac_sha256 key msg, b < 256 := by
  simp only [hmac_sha256]
  exact sha256_bytes_lt _

/-! ## Claim theorems -/

/-- C1: for every key and every challenge, `compute_wcs` is deterministic —
repeated calls with the same (key, challenge) return the same encoded
string — and its decoded raw output, before encoding, is exactly
32 bytes. -/
theorem compute_wcs_deterministic_and_32_bytes (k1 c1 k2 c2 : List Nat)
    (hk : k1 = k2) (hc : c1 = c2) :
    compute_wcs k1 c1 = compute_wcs k2 c2 ∧
      (base_64_decode (compute_wcs k1 c1)).length = 32 := by
  subst hk hc
  refine ⟨rfl, ?_⟩
  rw [compute_wcs, base_64_decode_encode _ (hmac_sha256_bytes_lt _ _), hmac_sha256_length]

/-- Witness for C1 at the key `"k"` and challenge `"c"` (bytes 107, 99). -/
theorem compute_wcs_deterministic_and_32_bytes_witness :
    ([107] : List Nat) = [107] ∧ ([99] : List Nat) = [99] ∧
      (compute_wcs [107] [99] = compute_wcs [107] [99] ∧
        (base_64_decode (compute_wcs [107] [99])).length = 32) :=
  ⟨rfl, rfl, compute_wcs_deterministic_and_32_bytes [107] [99] [107] [99] rfl rfl⟩

/-- C2: for every secret, salt, iterations > 0 and key_length > 0,
`derive_key` is deterministic: two calls with identical inputs yield
identical encoded output. -/
theorem derive_key_deterministic (s1 sa1 s2 sa2 : List Nat) (i1 k1 i2 k2 : Int)
    (hs : s1 = s2) (hsa : sa1 = sa2) (hi : i1 = i2) (hk : k1 = k2)
    (hipos : 0 < i1) (hkpos : 0 < k1) :
    derive_key s1 sa1 i1 k1 = derive_key s2 sa2 i2 k2 := by
  subst hs hsa hi hk
  rfl

/-- Witness for C2 at secret `[1]`, salt `[2]`, one iteration, one byte. -/
theorem derive_key_deterministic_witness :
    ([1] : List Nat) = [1] ∧ ([2] : List Nat) = [2] ∧ (1 : Int) = 1 ∧
      (0 : Int) < 1 ∧ derive_key [1] [2] 1 1 = derive_key [1] [2] 1 1 :=
  ⟨rfl, rfl, rfl, by decide,
    derive_key_deterministic [1] [2] [1] [2] 1 1 1 1 rfl rfl rfl rfl (by decide) (by decide)⟩

/-- C3 counterexample: with a zero return code from the primitive, the
derivation check of lines 136-143 throws `derived_key_error` instead of
signalling success, so success is signalled on nonzero, not on zero. -/
theorem derive_key_zero_retcode_fails :
    derive_key_with ((0 : Int), ([] : List Nat)) = .error .mk := rfl

/-- C3 amended: `derive_key` signals success exactly when the underlying
PBKDF2 primitive returns a nonzero return code and throws
`derived_key_error` on a zero return code; the primitive's result is the
only input of that decision. -/
theorem derive_key_success_iff_nonzero (r : Int) (bs : List Nat)
    (p s : List Nat) (it kl : Int) :
    ((derive_key_with (r, bs)).isOk = true ↔ r ≠ 0) ∧
      derive_key p s it kl = derive_key_with (PKCS5_PBKDF2_HMAC p s it kl) := by
  refine ⟨?_, rfl⟩
  unfold derive_key_with
  by_cases h : r = 0 <;> simp [h, Except.isOk, Except.toBool]

/-- Witness for C3 (amended) at return code 1 and empty inputs. -/
theorem derive_key_success_iff_nonzero_witness :
    (((derive_key_with ((1 : Int), ([] : List Nat))).isOk = true ↔ (1 : Int) ≠ 0) ∧
      derive_key [] [] 1 1 = derive_key_with (PKCS5_PBKDF2_HMAC [] [] 1 1)) :=
  derive_key_success_iff_nonzero 1 [] [] [] 1 1

/-- C4 counterexample: the encoding of a 32-byte digest (here 32 zero
bytes) contains the padding character `=` (ASCII 61), because 32 is not a
multiple of 3 and the OpenSSL base64 BIO pads. -/
theorem base_64_encode_contains_padding :
    61 ∈ base_64_encode (List.replicate 32 0) := by decide

/-- C4 amended: for every input byte sequence the encoding contains no
newline character, and it contains the padding character `=` (ASCII 61)
exactly when the input length is not divisible by 3 — in particular the
encoded 32-byte digest does contain `=`. -/
theorem base_64_encode_no_newline_padding_iff (x : List Nat) :
    10 ∉ base_64_encode x ∧ (61 ∈ base_64_encode x ↔ x.length % 3 ≠ 0) :=
  base_64_encode_chars x

/-- Witness for C4 (amended) at the input `[0]`. -/
theorem base_64_encode_no_newline_padding_iff_witness :
    10 ∉ base_64_encode [0] ∧ (61 ∈ base_64_encode [0] ↔ ([0] : List Nat).length % 3 ≠ 0) :=
  base_64_encode_no_newline_padding_iff [0]

lemma wcs_getD_mem (n : Nat) :
    WCS_SECRET_CHARSET.getD (wcsIndex n) 'A' ∈ WCS_SECRET_CHARSET := by
  have hlt : wcsIndex n < WCS_SECRET_CHARSET.length := by
    rw [show WCS_SECRET_CHARSET.length = 62 from rfl]
    exact Nat.mod_lt _ (by norm_num)
  rw [List.getD_eq_getElem _ _ hlt]
  exact List.getElem_mem _

/-- C5: `generate_wcs length` returns exactly `length` characters, each
drawn from the 62-symbol alphanumeric charset, and the default length is
14. -/
theorem generate_wcs_length_and_charset (rnd : Nat → Nat) (len : Int) (hlen : 0 ≤ len) :
    ((generate_wcs rnd len).length : Int) = len ∧
      (∀ ch ∈ generate_wcs rnd len, ch ∈ WCS_SECRET_CHARSET) ∧
      generate_wcs_default rnd = generate_wcs rnd 14 ∧
      WCS_SECRET_CHARSET.length = 62 := by
  refine ⟨?_, ?_, rfl, rfl⟩
  · simp [generate_wcs, Int.toNat_of_nonneg hlen]
  · intro ch hch
    simp only [generate_wcs, List.mem_map] at hch
    obtain ⟨i, _, rfl⟩ := hch
    exact wcs_getD_mem _

/-- Witness for C5 at length 3 and the constant random source 0. -/
theorem generate_wcs_length_and_charset_witness :
    (0 : Int) ≤ 3 ∧
      (((generate_wcs (fun _ => 0) 3).length : Int) = 3 ∧
        (∀ ch ∈ generate_wcs (fun _ => 0) 3, ch ∈ WCS_SECRET_CHARSET) ∧
        generate_wcs_default (fun _ => 0) = generate_wcs (fun _ => 0) 14 ∧
        WCS_SECRET_CHARSET.length = 62) :=
  ⟨by decide, generate_wcs_length_and_charset (fun _ => 0) 3 (by decide)⟩

/-- C6 counterexample: over the glibc `rand()` range of `2 ^ 31` raw
values, the number of raw values `wcsIndex` maps to charset position 0
differs from the number mapped to position 61 — `rand() % 62` has modulo
bias, so the 62 characters are not selected with equal probability. -/
theorem wcsIndex_bias_on_glibc_range :
    wcsIndexCount 2147483648 0 ≠ wcsIndexCount 2147483648 61 := by
  rw [wcsIndexCount_eq _ _ (by norm_num), wcsIndexCount_eq _ _ (by norm_num)]
  norm_num

/-- C6 amended: each character of `generate_wcs` is chosen as
`WCS_SECRET_CHARSET[rand() % 62]`; over a range of `n` raw random values,
charset position `c` receives `n / 62` raw values plus one more exactly
when `c < n % 62`, so the counts are equal for all 62 positions only when
62 divides the range size — for a power-of-two range such as glibc's
`2 ^ 31` the distribution is close to, but not exactly, uniform. -/
theorem wcsIndexCount_closed_form (n c : Nat) (hc : c < 62) :
    wcsIndexCount n c = n / 62 + (if c < n % 62 then 1 else 0) :=
  wcsIndexCount_eq n c hc

/-- Witness for C6 (amended) at `n = 124`, `c = 5`. -/
theorem wcsIndexCount_closed_form_witness :
    5 < 62 ∧ wcsIndexCount 124 5 = 124 / 62 + (if 5 < 124 % 62 then 1 else 0) :=
  ⟨by decide, wcsIndexCount_closed_form 124 5 (by decide)⟩

/-- C7 counterexample: `derive_key` with iteration count 0 (non-positive)
and key length 4 is not rejected: it returns a derived key (the source has
no precondition check; OpenSSL's counter loop treats `iter <= 1` as one
iteration and returns its success code). -/
theorem derive_key_nonpositive_iterations_not_rejected :
    (derive_key [112] [115] 0 4).isOk = true := rfl

/-- C7 amended: `derive_key` performs no validation of its iteration count
or key length: a call with iteration count 0 succeeds and returns the same
derived key as iteration count 1, and a call with key length 0 succeeds
and returns the encoding of an empty key, rather than being rejected as a
precondition failure. -/
theorem derive_key_no_validation (p s : List Nat) (kl : Int) (hkl : 0 ≤ kl) :
    derive_key p s 0 kl = derive_key p s 1 kl ∧
      (derive_key p s 0 kl).isOk = true ∧
      derive_key p s 1 0 = .ok [] := by
  refine ⟨?_, rfl, rfl⟩
  have hblock : ∀ i, pbkdf2Block p s 0 i = pbkdf2Block p s 1 i := by
    intro i
    have h10 : ((0 : Int) - 1).toNat = ((1 : Int) - 1).toNat := by decide
    unfold pbkdf2Block
    rw [h10]
  simp [derive_key, PKCS5_PBKDF2_HMAC, hblock]

/-- Witness for C7 (amended) at empty secret and salt, key length 1. -/
theorem derive_key_no_validation_witness :
    (0 : Int) ≤ 1 ∧
      (derive_key [] [] 0 1 = derive_key [] [] 1 1 ∧
        (derive_key [] [] 0 1).isOk = true ∧
        derive_key [] [] 1 0 = .ok []) :=
  ⟨by decide, derive_key_no_validation [] [] 1 (by decide)⟩

/-- C8: the transport-safe encoding round-trips — re-encoding the decoding
of an encoded byte sequence reproduces the encoding. -/
theorem base_64_encode_round_trip (x : List Nat) (hx : ∀ b ∈ x, b < 256) :
    base_64_encode (base_64_decode (base_64_encode x)) = base_64_encode x := by
  rw [base_64_decode_encode x hx]

/-- Witness for C8 at the bytes `[1, 2, 3, 4]`. -/
theorem base_64_encode_round_trip_witness :
    (∀ b ∈ ([1, 2, 3, 4] : List Nat), b < 256) ∧
      base_64_encode (base_64_decode (base_64_encode [1, 2, 3, 4])) =
        base_64_encode [1, 2, 3, 4] :=
  ⟨by decide, base_64_encode_round_trip [1, 2, 3, 4] (by decide)⟩

/-- C9: in the modelled handler-attachment contract, a successful `attach`
makes `has_handler` true, `detach` makes it false, and attaching while a
handler is attached is rejected as a contract violation (no silent
replacement). -/
theorem wamp_transport_handler_contract (s : transport_state) (hid : Nat) :
    (∀ t, wamp_attach s hid = .ok t → wamp_has_handler t = true) ∧
      wamp_has_handler (wamp_detach s) = false ∧
      (wamp_has_handler s = true → wamp_attach s hid = .error .mk) := by
  obtain ⟨_ | hcur⟩ := s
  · refine ⟨?_, rfl, ?_⟩
    · intro t ht
      have hts : t = ⟨some hid⟩ := by
        simpa [wamp_attach] using ht.symm
      rw [hts]
      rfl
    · intro hfalse
      simp [wamp_has_handler] at hfalse
  · refine ⟨?_, rfl, fun _ => rfl⟩
    intro t ht
    simp [wamp_attach] at ht

/-- Witness for C9: a concrete attach on a free transport, then detach,
then a rejected double attach. -/
theorem wamp_transport_handler_contract_witness :
    wamp_attach ⟨none⟩ 7 = .ok ⟨some 7⟩ ∧
      wamp_has_handler ⟨some 7⟩ = true ∧
      wamp_has_handler (wamp_detach ⟨some 7⟩) = false ∧
      wamp_attach ⟨some 7⟩ 9 = .error .mk :=
  ⟨rfl, (wamp_transport_handler_contract ⟨none⟩ 7).1 ⟨some 7⟩ rfl,
    (wamp_transport_handler_contract ⟨some 7⟩ 9).2.1,
    (wamp_transport_handler_contract ⟨some 7⟩ 9).2.2 rfl⟩

/-- C10: for every length less than or equal to zero, `generate_wcs`
returns the empty string. -/
theorem generate_wcs_nonpositive_empty (rnd : Nat → Nat) (len : Int) (hlen : len ≤ 0) :
    generate_wcs rnd len = [] := by
  unfold generate_wcs
  rw [show len.toNat = 0 by omega]
  rfl

/-- Witness for C10 at length `-3`. -/
theorem generate_wcs_nonpositive_empty_witness :
    (-3 : Int) ≤ 0 ∧ generate_wcs (fun _ => 0) (-3) = [] :=
  ⟨by decide, generate_wcs_nonpositive_empty (fun _ => 0) (-3) (by decide)⟩
